import Mathlib

/-! # Conversation-state and access-control engine: shallow embedding

This file embeds the database-backed core of a chat relay bot (source
files `db.rs`, `models.rs`, `main.rs`) as pure Lean functions over an
explicit relational state, and proves the specified properties about it.

Modelling conventions:
* The two storage backends (the SQLite and PostgreSQL branches of every
  Rust function) issue statements with identical logical semantics; each
  Lean function models that common semantics once.
* Timestamps are an abstract monotone clock of type `Nat`, supplied by
  the caller at each operation; the `DEFAULT` timestamp expressions of the
  schema and the `CURRENT_TIMESTAMP` / `datetime` updates all read this
  clock.  (The source mixes UTC and local wall clocks; both are collapsed
  into the single abstract clock, which is all the claims depend on.)
* `AUTOINCREMENT` / `SERIAL` primary keys are modelled by per-table
  counters; `last_insert_rowid` / `RETURNING id` both return the fresh id.
* Storage errors are not modelled inside the table operations (the pure
  model cannot fail); where a caller branches on a possible storage error
  the model takes that outcome as an explicit `Except` parameter.
* Rust `u64` arguments bound as `i64` (the `as i64` casts in `models.rs`)
  are modelled with the wrapping reinterpretation `wrapI64`.
* `LIMIT` with a nonnegative bound keeps that many rows in both backends;
  the model uses `Int.toNat` (the backends disagree for negative limits,
  which no caller and no claim exercises).
-/

/-- A row of the `sessions` table (`struct Session` in `models.rs`). -/
structure Session where
  id : Int
  chat_id : Int
  created_at : Nat
  updated_at : Nat
deriving Repr, DecidableEq

/-- A row of the `messages` table (schema in `db.rs`; rows are read back
as `(role, content)` tuples, there is no dedicated Rust struct). -/
structure MessageRow where
  id : Int
  session_id : Int
  role : String
  content : String
  timestamp : Nat
deriving Repr, DecidableEq

/-- `struct ChatMessage` in `models.rs`: the projection returned by
`Message::get_recent_messages`. -/
structure ChatMessage where
  role : String
  content : String
deriving Repr, DecidableEq

/-- A row of the `whitelist_users` table (`struct WhitelistUser`). -/
structure WhitelistUser where
  id : Int
  user_id : Int
  username : Option String
  added_by : Int
  added_at : Nat
  notes : Option String
deriving Repr, DecidableEq

/-- A row of the `admins` table (`struct Admin`); `is_super` is stored as
`BOOLEAN` on PostgreSQL and as an `INTEGER` 0/1 on SQLite, with the same
logical meaning. -/
structure Admin where
  id : Int
  user_id : Int
  username : Option String
  is_super : Bool
  added_at : Nat
deriving Repr, DecidableEq

/-- The whole database state: the four tables created by `init_db` in
`db.rs`, plus the auto-increment counter of each table. -/
structure DB where
  sessions : List Session
  messages : List MessageRow
  whitelist_users : List WhitelistUser
  admins : List Admin
  nextSessionId : Int
  nextMessageId : Int
  nextWhitelistId : Int
  nextAdminId : Int
deriving Repr, DecidableEq

/-- Reinterpretation of a `u64` value as an `i64` (the `as i64` casts at
the bind sites in `models.rs`): wrap into the i64 range. -/
def wrapI64 (n : Int) : Int :=
  (n + 9223372036854775808) % 18446744073709551616 - 9223372036854775808

/-- An opaque storage-layer failure (`sqlx::Error`), carrying only a
diagnostic string. -/
inductive DbErr where
  | failure (msg : String)
deriving Repr, DecidableEq

/-- The row transformation performed by
`UPDATE sessions SET updated_at = <now> WHERE id = <sid>`. -/
def touchSession (sid : Int) (now : Nat) (r : Session) : Session :=
  if r.id == sid then { r with updated_at := now } else r

/-- `Session::find_or_create_by_chat_id` (`models.rs`): look a session up
by conversation id (`fetch_optional`, i.e. the first matching row); if
found, refresh its `updated_at` and return its id, otherwise insert a new
row (timestamps defaulted to the clock) and return the fresh id. -/
def Session.find_or_create_by_chat_id (db : DB) (chat_id : Int) (now : Nat) :
    Int × DB :=
  match db.sessions.find? (fun s => s.chat_id == chat_id) with
  | some s =>
      (s.id, { db with sessions := db.sessions.map (touchSession s.id now) })
  | none =>
      (db.nextSessionId,
       { db with
           sessions := db.sessions ++
             [{ id := db.nextSessionId, chat_id := chat_id,
                created_at := now, updated_at := now }],
           nextSessionId := db.nextSessionId + 1 })

/-- One iteration of the deletion loop in `clear_history_by_chat_id`:
`DELETE FROM messages WHERE session_id = <sid>`. -/
def deleteSessionMessages (d : DB) (sid : Int) : DB :=
  { d with messages := d.messages.filter (fun m => !(m.session_id == sid)) }

/-- `Session::clear_history_by_chat_id` (`models.rs`): fetch the ids of
every session with the given conversation id, delete the messages of each
such session, then delete the session rows themselves. -/
def Session.clear_history_by_chat_id (db : DB) (chat_id : Int) : DB :=
  let ids := (db.sessions.filter (fun s => s.chat_id == chat_id)).map Session.id
  let db1 := ids.foldl deleteSessionMessages db
  { db1 with sessions := db1.sessions.filter (fun s => !(s.chat_id == chat_id)) }

/-- `Message::create` (`models.rs`):
`INSERT INTO messages (session_id, role, content) VALUES (...)` with the
timestamp defaulted to the clock.  The role string is bound verbatim;
neither this function nor the schema validates it. -/
def Message.create (db : DB) (session_id : Int) (role content : String)
    (now : Nat) : DB :=
  { db with
      messages := db.messages ++
        [{ id := db.nextMessageId, session_id := session_id, role := role,
           content := content, timestamp := now }],
      nextMessageId := db.nextMessageId + 1 }

/-- The comparison used by `ORDER BY timestamp ASC`. -/
def tsLe (a b : MessageRow) : Prop := a.timestamp ≤ b.timestamp

instance : DecidableRel tsLe :=
  fun a b => inferInstanceAs (Decidable (a.timestamp ≤ b.timestamp))

instance : IsTotal MessageRow tsLe := ⟨fun a b => Nat.le_total a.timestamp b.timestamp⟩

instance : IsTrans MessageRow tsLe := ⟨fun _ _ _ hab hbc => Nat.le_trans hab hbc⟩

/-- The rows selected by `Message::get_recent_messages`:
`SELECT role, content FROM messages WHERE session_id = ? ORDER BY
timestamp ASC LIMIT ?` — filter by session, sort by timestamp ascending,
keep the first `limit` rows. -/
def Message.get_recent_messages_rows (db : DB) (session_id : Int)
    (limit : Int) : List MessageRow :=
  (List.insertionSort tsLe
    (db.messages.filter (fun m => m.session_id == session_id))).take limit.toNat

/-- `Message::get_recent_messages` (`models.rs`): the selected rows,
projected to `ChatMessage {role, content}` in query order. -/
def Message.get_recent_messages (db : DB) (session_id : Int) (limit : Int) :
    List ChatMessage :=
  (Message.get_recent_messages_rows db session_id limit).map
    (fun m => { role := m.role, content := m.content })

/-- `WhitelistUser::is_user_whitelisted` (`models.rs`):
`SELECT COUNT(*) FROM whitelist_users WHERE user_id = ?` compared
against zero. -/
def WhitelistUser.is_user_whitelisted (db : DB) (user_id : Int) : Bool :=
  decide (0 < (db.whitelist_users.filter
    (fun w => w.user_id == wrapI64 user_id)).length)

/-- `WhitelistUser::add_user` (`models.rs`): `INSERT OR IGNORE` /
`ON CONFLICT (user_id) DO NOTHING` — a no-op when a row with the same
`user_id` (the only conflict source: `user_id` is `UNIQUE` and the
primary key is fresh) already exists, otherwise a plain insert with
`added_at` defaulted to the clock. -/
def WhitelistUser.add_user (db : DB) (user_id : Int) (username : Option String)
    (added_by : Int) (notes : Option String) (now : Nat) : DB :=
  if db.whitelist_users.any (fun w => w.user_id == wrapI64 user_id) then db
  else
    { db with
        whitelist_users := db.whitelist_users ++
          [{ id := db.nextWhitelistId, user_id := wrapI64 user_id,
             username := username, added_by := wrapI64 added_by,
             added_at := now, notes := notes }],
        nextWhitelistId := db.nextWhitelistId + 1 }

/-- `WhitelistUser::remove_user` (`models.rs`):
`DELETE FROM whitelist_users WHERE user_id = ?`, returning
`rows_affected() > 0` alongside the new state. -/
def WhitelistUser.remove_user (db : DB) (user_id : Int) : Bool × DB :=
  let affected :=
    (db.whitelist_users.filter (fun w => w.user_id == wrapI64 user_id)).length
  (decide (0 < affected),
   { db with
       whitelist_users := db.whitelist_users.filter
         (fun w => !(w.user_id == wrapI64 user_id)) })

/-- `Admin::is_admin` (`models.rs`):
`SELECT COUNT(*) FROM admins WHERE user_id = ?` compared against zero
(tier-agnostic). -/
def Admin.is_admin (db : DB) (user_id : Int) : Bool :=
  decide (0 < (db.admins.filter (fun a => a.user_id == wrapI64 user_id)).length)

/-- `Admin::is_super_admin` (`models.rs`): same count restricted to rows
with the super flag set (`is_super = 1` / `is_super = TRUE`). -/
def Admin.is_super_admin (db : DB) (user_id : Int) : Bool :=
  decide (0 < (db.admins.filter
    (fun a => a.user_id == wrapI64 user_id && a.is_super)).length)

/-- `Admin::add_admin` (`models.rs`): `INSERT OR IGNORE` /
`ON CONFLICT (user_id) DO NOTHING` insert of an admin row, same conflict
semantics as `WhitelistUser.add_user`. -/
def Admin.add_admin (db : DB) (user_id : Int) (username : Option String)
    (is_super : Bool) (now : Nat) : DB :=
  if db.admins.any (fun a => a.user_id == wrapI64 user_id) then db
  else
    { db with
        admins := db.admins ++
          [{ id := db.nextAdminId, user_id := wrapI64 user_id,
             username := username, is_super := is_super, added_at := now }],
        nextAdminId := db.nextAdminId + 1 }

/-- `check_whitelist` (`main.rs`): with a sender present, grant when
`Admin::is_admin` returns `Ok(true)`; otherwise (including an error from
the admin check) fall through to `WhitelistUser::is_user_whitelisted`,
granting only on `Ok(true)` and denying on `Ok(false)` or an error.  A
message without sender information is denied.  The two checks are taken
as `Except`-valued capabilities so that the storage-error outcomes are
part of the model. -/
def check_whitelist (fromUser : Option Int)
    (adminRes wlRes : Int → Except DbErr Bool) : Bool :=
  match fromUser with
  | some u =>
    match adminRes u with
    | .ok true => true
    | _ =>
      match wlRes u with
      | .ok true => true
      | .ok false => false
      | .error _ => false
  | none => false

/-- `process_chat_message` (`main.rs`), state part: resolve the session,
persist the inbound turn with role `"user"`, read the recent context
(`limit` 10, no state effect), call the remote model — abstracted as the
`llmReply` parameter, `some` being a successful reply — and on success
persist the reply with role `"assistant"`.  On failure the user turn
stays committed and the error is returned. -/
def process_chat_message (db : DB) (chat_id : Int) (message : String)
    (llmReply : Option String) (tS tU tA : Nat) : Except String String × DB :=
  let found := Session.find_or_create_by_chat_id db chat_id tS
  let db2 := Message.create found.2 found.1 "user" message tU
  match llmReply with
  | some content =>
      (Except.ok content, Message.create db2 found.1 "assistant" content tA)
  | none => (Except.error "GPT API error", db2)

/-- `handle_voice_message` (`main.rs`), state part after a successful
transcription: resolve the session, persist the transcription with role
`"user"`, then run `process_chat_message` on the transcribed text. -/
def handle_voice_message_db (db : DB) (chat_id : Int) (text : String)
    (llmReply : Option String) (tS tU tS2 tU2 tA : Nat) : DB :=
  let found := Session.find_or_create_by_chat_id db chat_id tS
  let db2 := Message.create found.2 found.1 "user" text tU
  (process_chat_message db2 chat_id text llmReply tS2 tU2 tA).2

/-- Rust `str::trim`: drop whitespace from both ends (text is handled as
its character sequence throughout the parsing layer). -/
def trimChars (cs : List Char) : List Char :=
  ((cs.dropWhile Char.isWhitespace).reverse.dropWhile Char.isWhitespace).reverse

/-- Rust `str::split` with separator `,`: the list of (possibly empty)
chunks between commas; an empty input yields one empty chunk. -/
def splitComma : List Char → List (List Char)
  | [] => [[]]
  | ch :: rest =>
    let r := splitComma rest
    if ch = ',' then [] :: r
    else
      match r with
      | a :: as => (ch :: a) :: as
      | [] => [[ch]]

/-- The numeric value of a list of decimal digit characters. -/
def digitsVal (ds : List Char) : Nat :=
  ds.foldl (fun a ch => a * 10 + (ch.toNat - 48)) 0

/-- Rust `str::parse::<i64>`: an optional single leading sign followed by
one or more ASCII digits, rejected when empty, when any non-digit
remains, or when the value overflows the i64 range. -/
def parseI64 : List Char → Option Int
  | [] => none
  | c :: rest =>
    let signVal : Int := if c = '-' then -1 else 1
    let ds : List Char := if c = '-' ∨ c = '+' then rest else c :: rest
    if ds = [] then none
    else if ds.all Char.isDigit then
      let v : Int := signVal * (digitsVal ds : Int)
      if -9223372036854775808 ≤ v ∧ v ≤ 9223372036854775807 then some v
      else none
    else none

/-- Rust `str::parse::<u64>`: an optional leading `+` followed by one or
more ASCII digits, rejected when empty, on any non-digit (including a
minus sign), or past the u64 range. -/
def parseU64 : List Char → Option Int
  | [] => none
  | c :: rest =>
    let ds : List Char := if c = '+' then rest else c :: rest
    if ds = [] then none
    else if ds.all Char.isDigit then
      let v : Nat := digitsVal ds
      if (v : Int) ≤ 18446744073709551615 then some (v : Int) else none
    else none

/-- The seeding insert of `add_initial_admins` (`db.rs`):
`INSERT OR IGNORE INTO admins (user_id, is_super) VALUES (?, 1)` — the
id is already an `i64`, the username is left NULL and the row is super.
Existing rows for the same `user_id` are left untouched. -/
def addSuperAdminSeed (db : DB) (admin_id : Int) (now : Nat) : DB :=
  if db.admins.any (fun a => a.user_id == admin_id) then db
  else
    { db with
        admins := db.admins ++
          [{ id := db.nextAdminId, user_id := admin_id, username := none,
             is_super := true, added_at := now }],
        nextAdminId := db.nextAdminId + 1 }

/-- One entry of the seeding loop: trim, parse as `i64`; on success seed
the id as a super-admin, on failure log a warning and continue. -/
def seedStep (now : Nat) (d : DB) (entry : List Char) : DB :=
  match parseI64 (trimChars entry) with
  | some admin_id => addSuperAdminSeed d admin_id now
  | none => d

/-- `add_initial_admins` (`db.rs`): when the configured id list is empty
(or the variable is absent, which yields the same empty string) warn and
succeed with no change; otherwise split on commas and run `seedStep` on
each entry.  The function only fails on a storage error, never on a parse
error, so the pure model is total. -/
def add_initial_admins (admin_ids : String) (db : DB) (now : Nat) : DB :=
  if admin_ids = "" then db
  else (splitComma admin_ids.toList).foldl (seedStep now) db

/-- The `Command::AddAdmin` arm of `handle_command` (`main.rs`), state
part: nothing happens without sender information; the sender must pass
`Admin::is_super_admin` with `Ok(true)` (a false or failed check only
sends a denial message); the argument must parse as a `u64`; and then —
always with `is_super = false` — `Admin::add_admin` runs. -/
def handle_add_admin (db : DB) (fromUser : Option Int)
    (superRes : Int → Except DbErr Bool) (arg : String) (now : Nat) : DB :=
  match fromUser with
  | none => db
  | some u =>
    match superRes u with
    | .ok true =>
      match parseU64 (trimChars arg.toList) with
      | some uid => Admin.add_admin db uid none false now
      | none => db
    | _ => db

/-- The number of whitelist rows for a given `u64` user id. -/
def countWl (db : DB) (u : Int) : Nat :=
  (db.whitelist_users.filter (fun w => w.user_id == wrapI64 u)).length

/-- The `updated_at` column of the (first) session row with a given id. -/
def sessionUpdatedAt (db : DB) (sid : Int) : Option Nat :=
  (db.sessions.find? (fun s => s.id == sid)).map Session.updated_at

/-- The freshly initialised database: four empty tables. -/
def emptyDb : DB :=
  { sessions := [], messages := [], whitelist_users := [], admins := [],
    nextSessionId := 1, nextMessageId := 1, nextWhitelistId := 1,
    nextAdminId := 1 }

/-- A concrete state: one session for conversation 42 holding a user turn
at time 1 and an assistant turn at time 2. -/
def exDb : DB :=
  { sessions := [{ id := 1, chat_id := 42, created_at := 0, updated_at := 0 }],
    messages :=
      [{ id := 1, session_id := 1, role := "user", content := "hello",
         timestamp := 1 },
       { id := 2, session_id := 1, role := "assistant", content := "hi",
         timestamp := 2 }],
    whitelist_users := [], admins := [],
    nextSessionId := 2, nextMessageId := 3, nextWhitelistId := 1,
    nextAdminId := 1 }

/-- A concrete state holding a single (seeded) super-admin row. -/
def superDb : DB :=
  { sessions := [], messages := [], whitelist_users := [],
    admins := [{ id := 1, user_id := 7, username := none, is_super := true,
                 added_at := 0 }],
    nextSessionId := 1, nextMessageId := 1, nextWhitelistId := 1,
    nextAdminId := 2 }

/-! ## General lemmas about the embedding -/

lemma touchSession_id (sid : Int) (now : Nat) (r : Session) :
    (touchSession sid now r).id = r.id := by
  unfold touchSession; split <;> rfl

lemma touchSession_chat_id (sid : Int) (now : Nat) (r : Session) :
    (touchSession sid now r).chat_id = r.chat_id := by
  unfold touchSession; split <;> rfl

lemma find?_map_pres {α : Type} (f : α → α) (p q : α → Bool)
    (hpq : ∀ r, p (f r) = q r) (l : List α) :
    (l.map f).find? p = (l.find? q).map f := by
  rw [List.find?_map, show p ∘ f = q from funext hpq]

lemma find?_append_of_none {α : Type} {p : α → Bool} {l l2 : List α}
    (h : l.find? p = none) : (l ++ l2).find? p = l2.find? p := by
  rw [List.find?_append, h, Option.none_or]

lemma find?_id_unique (l : List Session) (s0 : Session)
    (hnd : (l.map Session.id).Nodup) (hm : s0 ∈ l) :
    l.find? (fun r => r.id == s0.id) = some s0 := by
  induction l with
  | nil => cases hm
  | cons x xs ih =>
    rw [List.map_cons, List.nodup_cons] at hnd
    rcases List.mem_cons.mp hm with rfl | hmem
    · exact List.find?_cons_of_pos _ (by simp)
    · have hne : x.id ≠ s0.id := by
        intro heq
        exact hnd.1 (heq ▸ List.mem_map_of_mem Session.id hmem)
      rw [List.find?_cons_of_neg _ (by simp [hne])]
      exact ih hnd.2 hmem

lemma create_messages (db : DB) (sid : Int) (role content : String) (t : Nat) :
    (Message.create db sid role content t).messages =
      db.messages ++
        [{ id := db.nextMessageId, session_id := sid, role := role,
           content := content, timestamp := t }] := rfl

lemma find_or_create_messages (db : DB) (c : Int) (t : Nat) :
    (Session.find_or_create_by_chat_id db c t).2.messages = db.messages := by
  unfold Session.find_or_create_by_chat_id
  cases h : db.sessions.find? (fun s => s.chat_id == c) <;> rfl

lemma add_user_noop (db : DB) (u : Int) (un : Option String) (ab : Int)
    (nt : Option String) (t : Nat)
    (h : db.whitelist_users.any (fun w => w.user_id == wrapI64 u) = true) :
    WhitelistUser.add_user db u un ab nt t = db := by
  simp [WhitelistUser.add_user, h]

lemma countWl_any_false (db : DB) (u : Int)
    (h : db.whitelist_users.any (fun w => w.user_id == wrapI64 u) = false) :
    countWl db u = 0 := by
  unfold countWl
  rw [List.length_eq_zero]
  exact List.filter_eq_nil_iff.mpr (List.any_eq_false.mp h)

lemma countWl_pos_of_any (db : DB) (u : Int)
    (h : db.whitelist_users.any (fun w => w.user_id == wrapI64 u) = true) :
    1 ≤ countWl db u := by
  rcases List.any_eq_true.mp h with ⟨w, hw, hp⟩
  have hmem : w ∈ db.whitelist_users.filter (fun w => w.user_id == wrapI64 u) :=
    List.mem_filter.mpr ⟨hw, hp⟩
  unfold countWl
  exact List.length_pos.mpr (fun hnil => by rw [hnil] at hmem; cases hmem)

/-! ## C5 -/

/-- C5: for every session and limit, `get_recent_messages` returns at most
`limit` turns, the selected rows carry non-decreasing timestamps (the
turns are not reordered relative to timestamp order), and a limit of 0
returns the empty sequence. -/
theorem get_recent_messages_bounds (db : DB) (sid : Int) (limit : Int) :
    (Message.get_recent_messages db sid limit).length ≤ limit.toNat
    ∧ List.Pairwise tsLe (Message.get_recent_messages_rows db sid limit)
    ∧ Message.get_recent_messages db sid 0 = [] := by
  refine ⟨?_, ?_, ?_⟩
  · simp only [Message.get_recent_messages, List.length_map,
      Message.get_recent_messages_rows, List.length_take]
    exact min_le_left _ _
  · simp only [Message.get_recent_messages_rows]
    exact List.Pairwise.sublist (List.take_sublist _ _)
      (List.sorted_insertionSort tsLe _)
  · rfl

/-! ## C1 -/

/-- C1: evidence that `get_recent_messages` selects the OLDEST turns, not
the most recent ones.  On a session whose history is a user turn at time 1
followed by an assistant turn at time 2, a limit of 1 yields the user turn
(the first row of the history), and the selected rows are not a suffix of
the session's append history as the claim requires. -/
theorem get_recent_messages_returns_oldest :
    Message.get_recent_messages exDb 1 1 = [{ role := "user", content := "hello" }]
    ∧ ¬ (Message.get_recent_messages_rows exDb 1 1).IsSuffix
        (exDb.messages.filter (fun m => m.session_id == 1)) := by
  constructor
  · rfl
  · decide

/-! ## C4 -/

/-- C4: the composed access check grants access precisely when the admin
check returns `Ok(true)` or the whitelist check returns `Ok(true)`; if
both return false, or a storage error leaves neither returning true,
access is denied.  Moreover, over the pure table checks the composition
computes exactly `is_admin OR is_whitelisted`. -/
theorem check_whitelist_grant_iff (db : DB) (u : Int)
    (adminRes wlRes : Int → Except DbErr Bool) :
    (check_whitelist (some u) adminRes wlRes = true ↔
      (adminRes u = .ok true ∨ wlRes u = .ok true))
    ∧ check_whitelist (some u) (fun v => .ok (Admin.is_admin db v))
        (fun v => .ok (WhitelistUser.is_user_whitelisted db v))
      = (Admin.is_admin db u || WhitelistUser.is_user_whitelisted db u) := by
  constructor
  · rcases ha : adminRes u with e | b
    · rcases hw : wlRes u with e2 | b2
      · simp [check_whitelist, ha, hw]
      · cases b2 <;> simp [check_whitelist, ha, hw]
    · cases b
      · rcases hw : wlRes u with e2 | b2
        · simp [check_whitelist, ha, hw]
        · cases b2 <;> simp [check_whitelist, ha, hw]
      · simp [check_whitelist, ha]
  · cases hA : Admin.is_admin db u <;>
      cases hW : WhitelistUser.is_user_whitelisted db u <;>
      simp [check_whitelist, hA, hW]

/-! ## C6 -/

lemma process_chat_message_roles (db : DB) (c : Int) (msg : String)
    (reply : Option String) (tS tU tA : Nat) :
    ∀ m ∈ (process_chat_message db c msg reply tS tU tA).2.messages,
      m ∈ db.messages ∨ m.role = "user" ∨ m.role = "assistant" := by
  intro m hm
  cases reply with
  | some content =>
    rw [show (process_chat_message db c msg (some content) tS tU tA).2
          = Message.create
              (Message.create (Session.find_or_create_by_chat_id db c tS).2
                (Session.find_or_create_by_chat_id db c tS).1 "user" msg tU)
              (Session.find_or_create_by_chat_id db c tS).1 "assistant" content tA
        from rfl, create_messages, create_messages, find_or_create_messages] at hm
    rcases List.mem_append.mp hm with h | h
    · rcases List.mem_append.mp h with h2 | h2
      · exact Or.inl h2
      · exact Or.inr (Or.inl (by rw [List.mem_singleton.mp h2]))
    · exact Or.inr (Or.inr (by rw [List.mem_singleton.mp h]))
  | none =>
    rw [show (process_chat_message db c msg none tS tU tA).2
          = Message.create (Session.find_or_create_by_chat_id db c tS).2
              (Session.find_or_create_by_chat_id db c tS).1 "user" msg tU
        from rfl, create_messages, find_or_create_messages] at hm
    rcases List.mem_append.mp hm with h | h
    · exact Or.inl h
    · exact Or.inr (Or.inl (by rw [List.mem_singleton.mp h]))

/-- C6: the message-log append layer performs no validation — for every
role string whatsoever, `Message.create` commits the row with the role
stored verbatim — while every append issued by the two conversational
pipelines of the program carries one of the two recognized role values
`"user"` or `"assistant"`. -/
theorem create_role_passthrough_callers_two_values :
    (∀ (db : DB) (sid : Int) (role content : String) (t : Nat),
      (Message.create db sid role content t).messages =
        db.messages ++
          [{ id := db.nextMessageId, session_id := sid, role := role,
             content := content, timestamp := t }])
    ∧ (∀ (db : DB) (c : Int) (msg : String) (reply : Option String)
        (tS tU tA : Nat),
        ∀ m ∈ (process_chat_message db c msg reply tS tU tA).2.messages,
          m ∈ db.messages ∨ m.role = "user" ∨ m.role = "assistant")
    ∧ (∀ (db : DB) (c : Int) (txt : String) (reply : Option String)
        (tS tU tS2 tU2 tA : Nat),
        ∀ m ∈ (handle_voice_message_db db c txt reply tS tU tS2 tU2 tA).messages,
          m ∈ db.messages ∨ m.role = "user" ∨ m.role = "assistant") := by
  refine ⟨fun db sid role content t => create_messages db sid role content t,
    process_chat_message_roles, ?_⟩
  intro db c txt reply tS tU tS2 tU2 tA m hm
  unfold handle_voice_message_db at hm
  rcases process_chat_message_roles _ c txt reply tS2 tU2 tA m hm with h | h | h
  · rw [create_messages, find_or_create_messages] at h
    rcases List.mem_append.mp h with h2 | h2
    · exact Or.inl h2
    · exact Or.inr (Or.inl (by rw [List.mem_singleton.mp h2]))
  · exact Or.inr (Or.inl h)
  · exact Or.inr (Or.inr h)

/-- Witness for C6: the user turn persisted by the text pipeline on a
fresh database satisfies the role disjunction. -/
theorem create_role_passthrough_witness :
    ({ id := 1, session_id := 1, role := "user", content := "hello",
       timestamp := 1 } : MessageRow) ∈ emptyDb.messages
    ∨ ({ id := 1, session_id := 1, role := "user", content := "hello",
         timestamp := 1 } : MessageRow).role = "user"
    ∨ ({ id := 1, session_id := 1, role := "user", content := "hello",
         timestamp := 1 } : MessageRow).role = "assistant" :=
  create_role_passthrough_callers_two_values.2.1 emptyDb 42 "hello" (some "hi")
    0 1 2
    { id := 1, session_id := 1, role := "user", content := "hello",
      timestamp := 1 }
    (by decide)

/-! ## C7 -/

/-- C7: `add_user` is idempotent — adding a user id that already has a
whitelist row is a silent no-op, and (from any state respecting the
`user_id` uniqueness constraint) two successive adds leave exactly one
row for that user id. -/
theorem add_user_idempotent (db : DB) (u : Int) (un : Option String)
    (ab : Int) (nt : Option String) (t1 t2 : Nat) :
    ((∃ w ∈ db.whitelist_users, w.user_id = wrapI64 u) →
        WhitelistUser.add_user db u un ab nt t1 = db)
    ∧ (countWl db u ≤ 1 →
        countWl (WhitelistUser.add_user
          (WhitelistUser.add_user db u un ab nt t1) u un ab nt t2) u = 1) := by
  constructor
  · rintro ⟨w, hw, he⟩
    exact add_user_noop db u un ab nt t1
      (List.any_eq_true.mpr ⟨w, hw, by simp [he]⟩)
  · intro hle
    cases hany : db.whitelist_users.any (fun w => w.user_id == wrapI64 u) with
    | true =>
      rw [add_user_noop db u un ab nt t1 hany, add_user_noop db u un ab nt t2 hany]
      exact Nat.le_antisymm hle (countWl_pos_of_any db u hany)
    | false =>
      have h1 : (WhitelistUser.add_user db u un ab nt t1).whitelist_users
          = db.whitelist_users ++
            [{ id := db.nextWhitelistId, user_id := wrapI64 u, username := un,
               added_by := wrapI64 ab, added_at := t1, notes := nt }] := by
        simp [WhitelistUser.add_user, hany]
      have hany2 : (WhitelistUser.add_user db u un ab nt t1).whitelist_users.any
          (fun w => w.user_id == wrapI64 u) = true := by
        rw [h1, List.any_append]
        simp
      rw [add_user_noop _ u un ab nt t2 hany2]
      unfold countWl
      rw [h1, List.filter_append, List.length_eq_zero.mp (countWl_any_false db u hany)]
      simp

/-- Witness for C7: two adds of user 55 on the fresh database leave
exactly one whitelist row for 55. -/
theorem add_user_idempotent_witness :
    countWl (WhitelistUser.add_user
      (WhitelistUser.add_user emptyDb 55 none 1001 (some "friend") 0)
      55 none 1001 (some "friend") 1) 55 = 1 :=
  (add_user_idempotent emptyDb 55 none 1001 (some "friend") 0 1).2 (by decide)

/-! ## C8 -/

/-- C8: `remove_user` returns true iff a whitelist row for the user id
existed (and afterwards no row for that id remains); when no row exists
it returns false and leaves the table unchanged. -/
theorem remove_user_spec (db : DB) (u : Int) :
    ((WhitelistUser.remove_user db u).1 = true ↔
        ∃ w ∈ db.whitelist_users, w.user_id = wrapI64 u)
    ∧ (∀ w ∈ (WhitelistUser.remove_user db u).2.whitelist_users,
        w.user_id ≠ wrapI64 u)
    ∧ ((¬ ∃ w ∈ db.whitelist_users, w.user_id = wrapI64 u) →
        (WhitelistUser.remove_user db u).2 = db) := by
  refine ⟨?_, ?_, ?_⟩
  · simp only [WhitelistUser.remove_user, decide_eq_true_eq]
    constructor
    · intro hpos
      rcases List.exists_mem_of_ne_nil _ (List.length_pos.mp hpos) with ⟨w, hw⟩
      rcases List.mem_filter.mp hw with ⟨hmem, hbeq⟩
      exact ⟨w, hmem, by simpa using hbeq⟩
    · rintro ⟨w, hw, he⟩
      exact List.length_pos.mpr (fun hnil => by
        have : w ∈ db.whitelist_users.filter (fun w => w.user_id == wrapI64 u) :=
          List.mem_filter.mpr ⟨hw, by simp [he]⟩
        rw [hnil] at this; cases this)
  · intro w hw
    rcases List.mem_filter.mp hw with ⟨_, hbeq⟩
    simpa using hbeq
  · intro hne
    show { db with whitelist_users := _ } = db
    rw [List.filter_eq_self.mpr]
    intro a ha
    simp only [Bool.not_eq_eq_eq_not, Bool.not_true, beq_eq_false_iff_ne, ne_eq]
    exact fun he => hne ⟨a, ha, he⟩

/-- Witness for C8: removing an absent user from the fresh database
reports false elsewhere and leaves the state unchanged (third conjunct
applied at user 7). -/
theorem remove_user_spec_witness :
    (WhitelistUser.remove_user emptyDb 7).2 = emptyDb :=
  (remove_user_spec emptyDb 7).2.2 (by decide)


/-! ## C2 -/

/-- C2: when a session row for the conversation exists the call returns
its id (after refreshing `updated_at`); otherwise it inserts a new row
and returns the fresh id.  Consequently, from any state whose session ids
are distinct and below the id counter (as auto-increment guarantees), two
sequential calls with the same conversation id return the same session
id, the first call leaves that session's `updated_at` at the first clock
value and the second at the later one. -/
theorem find_or_create_sequential (db : DB) (c : Int) (t1 t2 : Nat)
    (hnd : (db.sessions.map Session.id).Nodup)
    (hlt : ∀ s ∈ db.sessions, s.id < db.nextSessionId)
    (ht : t1 ≤ t2) :
    (∀ s0, db.sessions.find? (fun s => s.chat_id == c) = some s0 →
        (Session.find_or_create_by_chat_id db c t1).1 = s0.id)
    ∧ (db.sessions.find? (fun s => s.chat_id == c) = none →
        (Session.find_or_create_by_chat_id db c t1).1 = db.nextSessionId)
    ∧ (Session.find_or_create_by_chat_id (Session.find_or_create_by_chat_id db c t1).2 c t2).1 = (Session.find_or_create_by_chat_id db c t1).1
    ∧ sessionUpdatedAt (Session.find_or_create_by_chat_id db c t1).2 (Session.find_or_create_by_chat_id db c t1).1 = some t1
    ∧ sessionUpdatedAt (Session.find_or_create_by_chat_id (Session.find_or_create_by_chat_id db c t1).2 c t2).2 (Session.find_or_create_by_chat_id db c t1).1 = some t2
    ∧ t1 ≤ t2 := by
  cases h : db.sessions.find? (fun s => s.chat_id == c) with
  | some s0 =>
    have hm : s0 ∈ db.sessions := List.mem_of_find?_eq_some h
    have e1 : Session.find_or_create_by_chat_id db c t1 = (s0.id, { db with sessions := db.sessions.map (touchSession s0.id t1) }) := by
      unfold Session.find_or_create_by_chat_id; rw [h]
    have hid : db.sessions.find? (fun r => r.id == s0.id) = some s0 :=
      find?_id_unique db.sessions s0 hnd hm
    have hid1 : (db.sessions.map (touchSession s0.id t1)).find? (fun r => r.id == s0.id) = some (touchSession s0.id t1 s0) := by
      rw [find?_map_pres (touchSession s0.id t1) _ (fun r => r.id == s0.id) (fun r => by rw [touchSession_id]), hid]
      rfl
    have htouch1 : touchSession s0.id t1 s0 = { s0 with updated_at := t1 } := by
      unfold touchSession; rw [if_pos (by simp)]
    have hchat1 : (db.sessions.map (touchSession s0.id t1)).find? (fun s => s.chat_id == c) = some (touchSession s0.id t1 s0) := by
      rw [find?_map_pres (touchSession s0.id t1) _ (fun s => s.chat_id == c) (fun r => by rw [touchSession_chat_id]), h]
      rfl
    have hids0 : (touchSession s0.id t1 s0).id = s0.id := touchSession_id _ _ _
    have e2 : Session.find_or_create_by_chat_id { db with sessions := db.sessions.map (touchSession s0.id t1) } c t2 = ((touchSession s0.id t1 s0).id, { db with sessions := (db.sessions.map (touchSession s0.id t1)).map (touchSession (touchSession s0.id t1 s0).id t2) }) := by
      unfold Session.find_or_create_by_chat_id
      rw [show ({ db with sessions := db.sessions.map (touchSession s0.id t1) } : DB).sessions = db.sessions.map (touchSession s0.id t1) from rfl, hchat1]
    have hid2 : ((db.sessions.map (touchSession s0.id t1)).map (touchSession s0.id t2)).find? (fun r => r.id == s0.id) = some (touchSession s0.id t2 (touchSession s0.id t1 s0)) := by
      rw [find?_map_pres (touchSession s0.id t2) _ (fun r => r.id == s0.id) (fun r => by rw [touchSession_id]), hid1]
      rfl
    have htouch2 : touchSession s0.id t2 (touchSession s0.id t1 s0) = { s0 with updated_at := t2 } := by
      rw [htouch1]; unfold touchSession; rw [if_pos (by simp)]
    refine ⟨?_, ?_, ?_, ?_, ?_, ht⟩
    · intro s0' h'
      injection h' with h''
      rw [e1, h'']
    · intro hnone; simp at hnone
    · simp only [e1, e2, hids0]
    · simp only [e1, sessionUpdatedAt]
      rw [hid1, htouch1]
      rfl
    · simp only [e1, e2, hids0, sessionUpdatedAt]
      rw [hid2, htouch2]
      rfl
  | none =>
    have e1 : Session.find_or_create_by_chat_id db c t1 = (db.nextSessionId, { db with sessions := db.sessions ++ [({ id := db.nextSessionId, chat_id := c, created_at := t1, updated_at := t1 } : Session)], nextSessionId := db.nextSessionId + 1 }) := by
      unfold Session.find_or_create_by_chat_id; rw [h]
    have hnone_id : db.sessions.find? (fun r => r.id == db.nextSessionId) = none :=
      List.find?_eq_none.mpr (fun x hx => by
        simp only [beq_iff_eq]
        exact ne_of_lt (hlt x hx))
    have hid1 : (db.sessions ++ [({ id := db.nextSessionId, chat_id := c, created_at := t1, updated_at := t1 } : Session)]).find? (fun r => r.id == db.nextSessionId) = some ({ id := db.nextSessionId, chat_id := c, created_at := t1, updated_at := t1 } : Session) := by
      rw [find?_append_of_none hnone_id]
      exact List.find?_cons_of_pos _ (by simp)
    have hchat1 : (db.sessions ++ [({ id := db.nextSessionId, chat_id := c, created_at := t1, updated_at := t1 } : Session)]).find? (fun s => s.chat_id == c) = some ({ id := db.nextSessionId, chat_id := c, created_at := t1, updated_at := t1 } : Session) := by
      rw [find?_append_of_none h]
      exact List.find?_cons_of_pos _ (by simp)
    have e2 : Session.find_or_create_by_chat_id { db with sessions := db.sessions ++ [({ id := db.nextSessionId, chat_id := c, created_at := t1, updated_at := t1 } : Session)], nextSessionId := db.nextSessionId + 1 } c t2 = (db.nextSessionId, { db with sessions := (db.sessions ++ [({ id := db.nextSessionId, chat_id := c, created_at := t1, updated_at := t1 } : Session)]).map (touchSession db.nextSessionId t2), nextSessionId := db.nextSessionId + 1 }) := by
      unfold Session.find_or_create_by_chat_id
      rw [show ({ db with sessions := db.sessions ++ [({ id := db.nextSessionId, chat_id := c, created_at := t1, updated_at := t1 } : Session)], nextSessionId := db.nextSessionId + 1 } : DB).sessions = db.sessions ++ [({ id := db.nextSessionId, chat_id := c, created_at := t1, updated_at := t1 } : Session)] from rfl, hchat1]
    have hid2 : ((db.sessions ++ [({ id := db.nextSessionId, chat_id := c, created_at := t1, updated_at := t1 } : Session)]).map (touchSession db.nextSessionId t2)).find? (fun r => r.id == db.nextSessionId) = some (touchSession db.nextSessionId t2 ({ id := db.nextSessionId, chat_id := c, created_at := t1, updated_at := t1 } : Session)) := by
      rw [find?_map_pres (touchSession db.nextSessionId t2) _ (fun r => r.id == db.nextSessionId) (fun r => by rw [touchSession_id]), hid1]
      rfl
    have htouch2 : touchSession db.nextSessionId t2 ({ id := db.nextSessionId, chat_id := c, created_at := t1, updated_at := t1 } : Session) = ({ id := db.nextSessionId, chat_id := c, created_at := t1, updated_at := t2 } : Session) := by
      unfold touchSession; rw [if_pos (by simp)]
    refine ⟨?_, ?_, ?_, ?_, ?_, ht⟩
    · intro s0' h'; simp at h'
    · intro _
      rw [e1]
    · simp only [e1, e2]
    · simp only [e1, sessionUpdatedAt]
      rw [hid1]
      rfl
    · simp only [e1, e2, sessionUpdatedAt]
      rw [hid2, htouch2]
      rfl

/-- Witness for C2: on the fresh database, the first call at time 0
leaves the returned session's `updated_at` at 0 and the second call at
time 1 moves it to 1. -/
theorem find_or_create_sequential_witness :
    sessionUpdatedAt (Session.find_or_create_by_chat_id emptyDb 42 0).2 (Session.find_or_create_by_chat_id emptyDb 42 0).1 = some 0
    ∧ sessionUpdatedAt (Session.find_or_create_by_chat_id (Session.find_or_create_by_chat_id emptyDb 42 0).2 42 1).2 (Session.find_or_create_by_chat_id emptyDb 42 0).1 = some 1 :=
  ⟨(find_or_create_sequential emptyDb 42 0 1 (by decide) (by decide)
      (by decide)).2.2.2.1,
   (find_or_create_sequential emptyDb 42 0 1 (by decide) (by decide)
      (by decide)).2.2.2.2.1⟩

/-! ## C3 -/

lemma deleteFold_sessions (ids : List Int) :
    ∀ d : DB, (ids.foldl deleteSessionMessages d).sessions = d.sessions := by
  induction ids with
  | nil => intro d; rfl
  | cons x xs ih =>
    intro d
    rw [List.foldl_cons, ih]
    rfl

lemma mem_deleteFold (ids : List Int) :
    ∀ (d : DB) (m : MessageRow),
      m ∈ (ids.foldl deleteSessionMessages d).messages →
      m ∈ d.messages ∧ ∀ sid ∈ ids, m.session_id ≠ sid := by
  induction ids with
  | nil =>
    intro d m hm
    exact ⟨hm, by intro sid hsid; exact absurd hsid (List.not_mem_nil sid)⟩
  | cons x xs ih =>
    intro d m hm
    rw [List.foldl_cons] at hm
    rcases ih (deleteSessionMessages d x) m hm with ⟨hmem, hrest⟩
    rcases List.mem_filter.mp hmem with ⟨hd, hbeq⟩
    refine ⟨hd, ?_⟩
    intro sid hsid
    rcases List.mem_cons.mp hsid with rfl | hsid2
    · simpa using hbeq
    · exact hrest sid hsid2

/-- C3: after `clear_history_by_chat_id` no surviving message references
any session row that carried the cleared conversation id (so none of the
deleted sessions leaves orphan messages), no session row for that
conversation id survives, and clearing a conversation with no session is
a no-op that succeeds rather than an error. -/
theorem clear_history_spec (db : DB) (c : Int) :
    (∀ m ∈ (Session.clear_history_by_chat_id db c).messages,
        ∀ s ∈ db.sessions, s.chat_id = c → m.session_id ≠ s.id)
    ∧ (∀ s ∈ (Session.clear_history_by_chat_id db c).sessions, s.chat_id ≠ c)
    ∧ ((∀ s ∈ db.sessions, s.chat_id ≠ c) →
        Session.clear_history_by_chat_id db c = db) := by
  refine ⟨?_, ?_, ?_⟩
  · intro m hm s hs hchat
    have hm2 : m ∈ (((db.sessions.filter (fun s => s.chat_id == c)).map Session.id).foldl deleteSessionMessages db).messages := hm
    rcases mem_deleteFold _ db m hm2 with ⟨_, hids⟩
    exact hids s.id (List.mem_map_of_mem Session.id
      (List.mem_filter.mpr ⟨hs, by simp [hchat]⟩))
  · intro s hs
    have hs2 : s ∈ ((((db.sessions.filter (fun s => s.chat_id == c)).map Session.id).foldl deleteSessionMessages db).sessions.filter (fun s => !(s.chat_id == c))) := hs
    rw [deleteFold_sessions] at hs2
    rcases List.mem_filter.mp hs2 with ⟨_, hbeq⟩
    simpa using hbeq
  · intro hnone
    have hfil : db.sessions.filter (fun s => s.chat_id == c) = [] :=
      List.filter_eq_nil_iff.mpr (fun a ha => by
        simp only [beq_iff_eq]
        exact hnone a ha)
    have hfil2 : db.sessions.filter (fun s => !(s.chat_id == c)) = db.sessions :=
      List.filter_eq_self.mpr (fun a ha => by
        simp only [Bool.not_eq_eq_eq_not, Bool.not_true, beq_eq_false_iff_ne, ne_eq]
        exact hnone a ha)
    show { (((db.sessions.filter (fun s => s.chat_id == c)).map Session.id).foldl deleteSessionMessages db) with sessions := (((db.sessions.filter (fun s => s.chat_id == c)).map Session.id).foldl deleteSessionMessages db).sessions.filter (fun s => !(s.chat_id == c)) } = db
    rw [hfil]
    show { db with sessions := db.sessions.filter (fun s => !(s.chat_id == c)) } = db
    rw [hfil2]

/-- Witness for C3: clearing conversation 5, for which the concrete state
holds no session, leaves the state untouched. -/
theorem clear_history_spec_witness :
    Session.clear_history_by_chat_id exDb 5 = exDb :=
  (clear_history_spec exDb 5).2.2 (by decide)

/-! ## C9 -/

lemma seedStep_mem (now : Nat) (d : DB) (x : List Char) (a : Admin)
    (h : a ∈ d.admins) : a ∈ (seedStep now d x).admins := by
  unfold seedStep
  cases hp : parseI64 (trimChars x) with
  | none => exact h
  | some n =>
    show a ∈ (addSuperAdminSeed d n now).admins
    cases hany : d.admins.any (fun r => r.user_id == n) with
    | true =>
      have hno : addSuperAdminSeed d n now = d := by
        simp [addSuperAdminSeed, hany]
      rw [hno]
      exact h
    | false =>
      have happ : (addSuperAdminSeed d n now).admins = d.admins ++ [{ id := d.nextAdminId, user_id := n, username := none, is_super := true, added_at := now }] := by
        simp [addSuperAdminSeed, hany]
      rw [happ]
      exact List.mem_append.mpr (Or.inl h)

lemma seed_mono (now : Nat) (l : List (List Char)) :
    ∀ (d : DB) (a : Admin), a ∈ d.admins → a ∈ (l.foldl (seedStep now) d).admins := by
  induction l with
  | nil => intro d a h; exact h
  | cons x xs ih =>
    intro d a h
    rw [List.foldl_cons]
    exact ih _ a (seedStep_mem now d x a h)

lemma seed_inserts (now : Nat) (n : Int) (d : DB) :
    ∃ a ∈ (addSuperAdminSeed d n now).admins, a.user_id = n := by
  cases hany : d.admins.any (fun a => a.user_id == n) with
  | true =>
    rcases List.any_eq_true.mp hany with ⟨a, ha, hp⟩
    refine ⟨a, ?_, by simpa using hp⟩
    simp [addSuperAdminSeed, hany, ha]
  | false =>
    refine ⟨{ id := d.nextAdminId, user_id := n, username := none, is_super := true, added_at := now }, ?_, rfl⟩
    simp [addSuperAdminSeed, hany]

lemma seed_fold_inserts (now : Nat) (n : Int) (l : List (List Char)) :
    ∀ d : DB, (∃ e ∈ l, parseI64 (trimChars e) = some n) →
      ∃ a ∈ (l.foldl (seedStep now) d).admins, a.user_id = n := by
  induction l with
  | nil =>
    intro d h
    rcases h with ⟨e, he, _⟩
    exact absurd he (List.not_mem_nil e)
  | cons x xs ih =>
    intro d h
    rw [List.foldl_cons]
    rcases h with ⟨e, he, hp⟩
    rcases List.mem_cons.mp he with rfl | hmem
    · have hstep : ∃ a ∈ (seedStep now d e).admins, a.user_id = n := by
        unfold seedStep
        rw [hp]
        exact seed_inserts now n d
      rcases hstep with ⟨a, ha, hu⟩
      exact ⟨a, seed_mono now xs _ a ha, hu⟩
    · exact ih _ ⟨e, hmem, hp⟩

lemma seed_preserves_absent (d : DB) (m n : Int) (now : Nat) (hmn : m ≠ n)
    (hq : ∀ a ∈ d.admins, a.user_id ≠ n) :
    ∀ a ∈ (addSuperAdminSeed d m now).admins, a.user_id ≠ n := by
  intro a ha
  cases hany : d.admins.any (fun x => x.user_id == m) with
  | true =>
    have hno : addSuperAdminSeed d m now = d := by simp [addSuperAdminSeed, hany]
    rw [hno] at ha
    exact hq a ha
  | false =>
    have happ : (addSuperAdminSeed d m now).admins = d.admins ++ [{ id := d.nextAdminId, user_id := m, username := none, is_super := true, added_at := now }] := by
      simp [addSuperAdminSeed, hany]
    rw [happ] at ha
    rcases List.mem_append.mp ha with h1 | h1
    · exact hq a h1
    · rw [List.mem_singleton.mp h1]
      simpa using hmn

lemma seed_fold_super (now : Nat) (n : Int) (l : List (List Char)) :
    ∀ d : DB, (∀ a ∈ d.admins, a.user_id ≠ n) →
      (∃ e ∈ l, parseI64 (trimChars e) = some n) →
      ∃ a ∈ (l.foldl (seedStep now) d).admins, a.user_id = n ∧ a.is_super = true := by
  induction l with
  | nil =>
    intro d _ h
    rcases h with ⟨e, he, _⟩
    exact absurd he (List.not_mem_nil e)
  | cons x xs ih =>
    intro d hq h
    rw [List.foldl_cons]
    cases hp : parseI64 (trimChars x) with
    | none =>
      have hstep : seedStep now d x = d := by unfold seedStep; rw [hp]
      rw [hstep]
      rcases h with ⟨e, he, hpe⟩
      rcases List.mem_cons.mp he with rfl | hmem
      · rw [hp] at hpe; cases hpe
      · exact ih d hq ⟨e, hmem, hpe⟩
    | some m =>
      have hstep : seedStep now d x = addSuperAdminSeed d m now := by
        unfold seedStep; rw [hp]
      rw [hstep]
      by_cases hmn : m = n
      · subst hmn
        have hany : d.admins.any (fun a => a.user_id == m) = false :=
          List.any_eq_false.mpr (fun a ha => by
            simp only [beq_iff_eq]
            exact hq a ha)
        have hins : ({ id := d.nextAdminId, user_id := m, username := none, is_super := true, added_at := now } : Admin) ∈ (addSuperAdminSeed d m now).admins := by
          simp [addSuperAdminSeed, hany]
        exact ⟨_, seed_mono now xs _ _ hins, rfl, rfl⟩
      · rcases h with ⟨e, he, hpe⟩
        rcases List.mem_cons.mp he with rfl | hmem
        · rw [hp] at hpe
          injection hpe with h2
          exact absurd h2 hmn
        · exact ih _ (seed_preserves_absent d m n now hmn hq) ⟨e, hmem, hpe⟩

/-- C9: bootstrap seeding with the empty (or absent) configured list is a
successful no-op; if no entry parses the state is unchanged (invalid
entries are skipped without aborting); every entry that parses as an
integer ends up with an admin row for that id; and when the id was not
already present the created row is a super-admin row. -/
theorem add_initial_admins_spec (ids : String) (db : DB) (now : Nat) :
    (ids = "" → add_initial_admins ids db now = db)
    ∧ ((∀ e ∈ splitComma ids.toList, parseI64 (trimChars e) = none) →
        add_initial_admins ids db now = db)
    ∧ (∀ e ∈ splitComma ids.toList, ∀ n, parseI64 (trimChars e) = some n →
        ∃ a ∈ (add_initial_admins ids db now).admins, a.user_id = n)
    ∧ (∀ n, (∀ a ∈ db.admins, a.user_id ≠ n) →
        (∃ e ∈ splitComma ids.toList, parseI64 (trimChars e) = some n) →
        ∃ a ∈ (add_initial_admins ids db now).admins,
          a.user_id = n ∧ a.is_super = true) := by
  refine ⟨?_, ?_, ?_, ?_⟩
  · intro hemp
    simp [add_initial_admins, hemp]
  · intro hall
    unfold add_initial_admins
    split
    · rfl
    · have hgen : ∀ l : List (List Char), (∀ e ∈ l, parseI64 (trimChars e) = none) →
          ∀ d : DB, l.foldl (seedStep now) d = d := by
        intro l
        induction l with
        | nil => intro _ d; rfl
        | cons x xs ih =>
          intro hl d
          rw [List.foldl_cons]
          have hx : seedStep now d x = d := by
            unfold seedStep
            rw [hl x (List.mem_cons_self x xs)]
          rw [hx]
          exact ih (fun e he => hl e (List.mem_cons_of_mem x he)) d
      exact hgen _ hall db
  · intro e he n hp
    unfold add_initial_admins
    split
    · next hemp =>
      rw [hemp] at he
      have he2 : e = [] := by
        have hsplit : splitComma "".toList = [[]] := rfl
        rw [hsplit] at he
        exact List.mem_singleton.mp he
      rw [he2] at hp
      cases hp
    · exact seed_fold_inserts now n _ db ⟨e, he, hp⟩
  · intro n hq hex
    unfold add_initial_admins
    split
    · next hemp =>
      rcases hex with ⟨e, he, hp⟩
      rw [hemp] at he
      have he2 : e = [] := by
        have hsplit : splitComma "".toList = [[]] := rfl
        rw [hsplit] at he
        exact List.mem_singleton.mp he
      rw [he2] at hp
      cases hp
    · exact seed_fold_super now n _ db hq hex

/-- Witness for C9: seeding from the list `"1001,abc"` on the fresh
database yields an admin row for 1001 (the invalid entry is skipped). -/
theorem add_initial_admins_spec_witness :
    ∃ a ∈ (add_initial_admins "1001,abc" emptyDb 0).admins, a.user_id = 1001 :=
  (add_initial_admins_spec "1001,abc" emptyDb 0).2.2.1 ['1', '0', '0', '1']
    (by decide) 1001 (by decide)

/-! ## C10 -/

/-- C10: the add-admin command pathway never creates or promotes a
super-admin — every super-admin row present after `handle_add_admin` was
already a row of the starting state (the handler always passes
`is_super = false` to `Admin::add_admin`, and the conflict-ignoring
insert never modifies an existing row). -/
theorem handle_add_admin_no_new_super (db : DB) (fromUser : Option Int)
    (superRes : Int → Except DbErr Bool) (arg : String) (now : Nat) :
    ∀ a ∈ (handle_add_admin db fromUser superRes arg now).admins,
      a.is_super = true → a ∈ db.admins := by
  intro a ha hs
  cases fromUser with
  | none =>
    simp only [handle_add_admin] at ha
    exact ha
  | some u =>
    simp only [handle_add_admin] at ha
    cases hres : superRes u with
    | error e => rw [hres] at ha; exact ha
    | ok b =>
      cases b with
      | false => rw [hres] at ha; exact ha
      | true =>
        rw [hres] at ha
        cases hp : parseU64 (trimChars arg.toList) with
        | none => rw [hp] at ha; exact ha
        | some uid =>
          rw [hp] at ha
          have ha2 : a ∈ (Admin.add_admin db uid none false now).admins := ha
          unfold Admin.add_admin at ha2
          cases hany : db.admins.any (fun x => x.user_id == wrapI64 uid) with
          | true => rw [hany] at ha2; simpa using ha2
          | false =>
            rw [hany] at ha2
            have ha3 : a ∈ db.admins ++ [{ id := db.nextAdminId, user_id := wrapI64 uid, username := none, is_super := false, added_at := now }] := by
              simpa using ha2
            rcases List.mem_append.mp ha3 with h1 | h1
            · exact h1
            · rw [List.mem_singleton.mp h1] at hs
              cases hs

/-- Witness for C10: after a super-admin runs add-admin for user 55, the
pre-existing super row is still one of the original rows. -/
theorem handle_add_admin_no_new_super_witness :
    ({ id := 1, user_id := 7, username := none, is_super := true,
       added_at := 0 } : Admin) ∈ superDb.admins :=
  handle_add_admin_no_new_super superDb (some 7) (fun _ => .ok true) "55" 1
    { id := 1, user_id := 7, username := none, is_super := true, added_at := 0 }
    (by decide) rfl
